import Mathlib

/-!
Verification development for the plainmerge render module (src/render.ts).

The render module is embedded shallowly:

* JS numbers that only ever hold sizes/coordinates are modelled as rationals (ℚ);
  JS truthiness on numbers (`x || d`) is modelled by `jsNumOr` (0 and undefined are
  falsy), and on strings by an explicit emptiness test.
* `RowMap = Record<number, string>` is modelled as `Nat → Option String`
  (`none` = the key is absent, i.e. the JS lookup yields `undefined`).
* pdf-lib documents are identified by a generation counter: every
  `PDFDocument.load` of the template bytes produces a fresh generation.  An
  embedded font handle is the pair (font key, generation of the document it was
  embedded into).  `font.heightAtSize` is an opaque metric, modelled as a
  function `Metrics` from font key, size and the descender flag to ℚ.
* `layoutMultilineText` and `page.drawText` are external pdf-lib primitives;
  the draw step is modelled down to the one call per text object, recorded as a
  `DrawOp` (the substituted text, geometry, alignment, bounds, font handle).
  The hex colour parse is not interpreted; the raw `fill` string is carried.
-/

namespace PlainMerge

/-- A spreadsheet row: `RowMap = Record<number, string>`; `none` models a JS
`undefined` lookup. -/
abbrev RowMap := Nat → Option String

/-- Opaque font metrics: key, size, descender flag ↦ height
(`font.heightAtSize(size, { descender })`, where the one-argument call has
`descender = true`). -/
abbrev Metrics := String → ℚ → Bool → ℚ

/-- An embedded font handle: the font key and the generation of the
`PDFDocument` it was embedded into. -/
abbrev FontHandle := String × Nat

/-- The font cache `FontMap = Record<string, PDFFont>`; keys are unique by
construction (`getFont` inserts only on a miss). -/
abbrev FontMap := List (String × FontHandle)

/-- JS `String(x)` applied to a possibly-undefined row value:
`String(undefined)` is the literal string "undefined". -/
def jsStringOfCell : Option String → String
  | none => "undefined"
  | some s => s

/-- JS `s || ''` on a string: the empty string is falsy. -/
def jsOrEmpty (s : String) : String := if s = "" then "" else s

/-- JS `x || d` on an optional number: `undefined` and `0` are falsy and fall
back to the default. -/
def jsNumOr (v : Option ℚ) (d : ℚ) : ℚ :=
  match v with
  | none => d
  | some x => if x = 0 then d else x

/-- The cache key of `getFont`: `font || StandardFonts.Helvetica` (an absent or
empty font family name falls back to the standard font). -/
def fontKey (f : Option String) : String :=
  match f with
  | none => "Helvetica"
  | some s => if s = "" then "Helvetica" else s

/-- Lookup in the font cache (`cachedFonts[key]`). -/
def lookupCache : FontMap → String → Option FontHandle
  | [], _ => none
  | p :: rest, key => if p.1 = key then some p.2 else lookupCache rest key

/-- The `getFont` helper of render.ts: on a miss the key is embedded into the
current document (generation `docGen`) and stored; on a hit the stored handle is
returned unchanged. -/
def getFontM (f : Option String) (docGen : Nat) (cache : FontMap) :
    FontHandle × FontMap :=
  let key := fontKey f
  match lookupCache cache key with
  | some h => (h, cache)
  | none => ((key, docGen), cache ++ [(key, (key, docGen))])

/-- A fabric `Textbox` overlay element (the `MyTextbox` interface): authoring
geometry in canvas pixels plus the column index of the substituted value.
Optional fields model fabric's optional properties. -/
structure Textbox where
  index : Nat
  left : Option ℚ
  top : Option ℚ
  width : Option ℚ
  height : Option ℚ
  fontSize : Option ℚ
  fontFamily : Option String
  fill : String
  textAlign : Option String
  lineHeight : Option ℚ
deriving DecidableEq, Repr

/-- A canvas object: a text box (`obj.type === 'text'`) or anything else
(`qrcode`/`rect`, which the loop skips). -/
inductive CanvasObj where
  | text (box : Textbox)
  | other (ty : String)
deriving DecidableEq, Repr

/-- Text alignment as passed to `layoutMultilineText`. -/
inductive Alignment where
  | left
  | center
  | right
deriving DecidableEq, Repr

/-- One `layoutMultilineText`/`drawText` invocation for one text object: the
substituted text, PDF-space geometry, bounds, alignment and the font handle
used.  The raw `fill` hex string is carried uninterpreted. -/
structure DrawOp where
  text : String
  x : ℚ
  y : ℚ
  size : ℚ
  font : FontHandle
  boundsW : ℚ
  boundsH : ℚ
  align : Alignment
  lineHeight : Option ℚ
  fill : String
deriving DecidableEq, Repr

/-- The body of `renderPage`'s loop for one `obj.type === 'text'` object
(render.ts lines 506-556 of the current revision): colour decode (carried raw),
`getFont`, `size = (o.fontSize || 16) * ratio`,
`offset = font.heightAtSize(size) - font.heightAtSize(size, { descender: false })`,
`x = (o.left || 0) * ratio + 1`,
`y = height - (o.top || 0) * ratio - (o.height || 0) * ratio + offset`,
alignment mapping, `text = String(row[o.index])`, and the layout call on
`text || ''` with bounds `(o.width || 100) * ratio` by `(o.height || 100) * ratio`. -/
def textOp (m : Metrics) (pageW pageH w : ℚ) (row : RowMap) (docGen : Nat)
    (cache : FontMap) (o : Textbox) : DrawOp × FontMap :=
  let ratio := pageW / w
  let fc := getFontM o.fontFamily docGen cache
  let size := jsNumOr o.fontSize 16 * ratio
  let offset := m fc.1.1 size true - m fc.1.1 size false
  let x := jsNumOr o.left 0 * ratio + 1
  let y := pageH - jsNumOr o.top 0 * ratio - jsNumOr o.height 0 * ratio + offset
  let align :=
    match o.textAlign with
    | some s => if s = "right" then Alignment.right
                else if s = "center" then Alignment.center
                else Alignment.left
    | none => Alignment.left
  let text := jsOrEmpty (jsStringOfCell (row o.index))
  ({ text := text, x := x, y := y, size := size, font := fc.1,
     boundsW := jsNumOr o.width 100 * ratio,
     boundsH := jsNumOr o.height 100 * ratio,
     align := align, lineHeight := o.lineHeight, fill := o.fill }, fc.2)

/-- The `renderPage` of the current revision (render.ts lines 489-561): returns
without drawing when `!canvasData || !canvasWidth`, otherwise lays out every
text object in order, threading the font cache. -/
def renderPageM (m : Metrics) (row : RowMap) (pageW pageH : ℚ) (docGen : Nat)
    (cache : FontMap) (canvasData : Option (List CanvasObj))
    (canvasWidth : Option ℚ) : List DrawOp × FontMap :=
  match canvasData, canvasWidth with
  | some objs, some w =>
    if w = 0 then ([], cache)
    else
      objs.foldl (fun acc obj =>
        match obj with
        | CanvasObj.text o =>
          let r := textOp m pageW pageH w row docGen acc.2 o
          (acc.1 ++ [r.1], r.2)
        | CanvasObj.other _ => acc) ([], cache)
  | _, _ => ([], cache)

/-! ### Output naming (`renderPdf`, split branch)

`output.split('.')`, `outputs.slice(0, outputs.length - 1).join('.')`,
`outputs[outputs.length - 1]`, and the template literal
`baseName-{rowNumber}.fileEx` are modelled over `List Char`. -/

/-- JS `String.prototype.split('.')`: splits at every dot; never empty. -/
def splitOnDot : List Char → List (List Char)
  | [] => [[]]
  | c :: cs =>
    if c = '.' then [] :: splitOnDot cs
    else
      match splitOnDot cs with
      | [] => [[c]]
      | hd :: tl => (c :: hd) :: tl

/-- JS `Array.prototype.join('.')`. -/
def joinDot : List (List Char) → List Char
  | [] => []
  | [x] => x
  | x :: xs => x ++ '.' :: joinDot xs

/-- The split-mode file name for 1-based row number `n`
(render.ts lines 615-619): all but the last dot-separated part rejoined, then
`-{n}.` and the last part. -/
def outputName (output : List Char) (n : Nat) : List Char :=
  let outputs := splitOnDot output
  let baseName := joinDot outputs.dropLast
  let fileEx := outputs.getLast?.getD []
  baseName ++ '-' :: Nat.toDigits 10 n ++ '.' :: fileEx

/-! ### The document assembler (`renderPdf`, current revision, lines 576-639)

Loop state: the template working document is identified by its generation
(`docGen`; generation 0 is the initial `PDFDocument.load`, each end-of-iteration
reload bumps it), `cache` is `cachedFonts`, `outPages` the pages accumulated in
`newDoc` (a page is recorded as the index of the row it was rendered from),
`written` the files flushed so far (name, page list), and `drawsLog` records,
per row, the generation of the working document that was drawn on together with
the draw operations (to observe which document owns each font handle used).
Form population happens on the per-row fresh form and leaves no trace in any of
these outputs, so it is not part of the assembler state. -/

structure LoopState where
  docGen : Nat
  nextGen : Nat
  cache : FontMap
  outPages : List Nat
  written : List (List Char × List Nat)
  drawsLog : List (Nat × List DrawOp)
deriving DecidableEq, Repr

/-- The initial state of `renderPdf`: template loaded once (generation 0),
fresh `newDoc`, empty font cache. -/
def sInit : LoopState := ⟨0, 1, [], [], [], []⟩

/-- One iteration of the `renderPdf` row loop (lines 593-630): render the row's
page (embedding fonts into the current working document), copy the page into
`newDoc`; in split mode flush `newDoc` under the derived name and reset `newDoc`
and `cachedFonts`; finally reload the template (a fresh generation). -/
def assembleStep (m : Metrics) (combinePdf : Bool) (output : List Char)
    (pageW pageH : ℚ) (rows : List RowMap) (canvasData : Option (List CanvasObj))
    (canvasWidth : Option ℚ) (s : LoopState) (i : Nat) : LoopState :=
  let row := rows.getD i (fun _ => none)
  let rendered := renderPageM m row pageW pageH s.docGen s.cache canvasData canvasWidth
  let afterRender : LoopState :=
    { s with cache := rendered.2,
             outPages := s.outPages ++ [i],
             drawsLog := s.drawsLog ++ [(s.docGen, rendered.1)] }
  let afterFlush : LoopState :=
    if combinePdf then afterRender
    else
      { afterRender with
          written := afterRender.written ++ [(outputName output (i + 1), afterRender.outPages)],
          outPages := [],
          cache := [] }
  { afterFlush with docGen := afterFlush.nextGen, nextGen := afterFlush.nextGen + 1 }

/-- The `renderPdf` entry point (current revision): runs the row loop in source
order; in combined mode the accumulated document is written to `output` after
the loop and the flushed-file count 1 is returned, in split mode the per-row
files have already been flushed and the row count is returned. -/
def renderPdfM (m : Metrics) (output : List Char) (pageW pageH : ℚ)
    (rows : List RowMap) (combinePdf : Bool) (canvasData : Option (List CanvasObj))
    (canvasWidth : Option ℚ) : LoopState × Nat :=
  let sN := (List.range rows.length).foldl
    (assembleStep m combinePdf output pageW pageH rows canvasData canvasWidth) sInit
  if combinePdf then
    ({ sN with written := sN.written ++ [(output, sN.outPages)] }, 1)
  else
    (sN, rows.length)

/-! ### The tabular row reader (`sheetToArray` / `readFirstSheet`) -/

/-- A decoded `!ref` range (`XLSX.utils.decode_range`): start/end row and
column, all 0-based and inclusive. -/
structure SheetRange where
  sr : Nat
  sc : Nat
  er : Nat
  ec : Nat
deriving DecidableEq, Repr

/-- A worksheet: the declared `!ref` range (absent for an empty sheet) and the
sparse cell map (`none` = no cell object at that address; `some v` = a cell
whose value `v` is taken as its display string). -/
structure Sheet where
  ref : Option SheetRange
  cells : Nat → Nat → Option String

/-- The inclusive index list of a `for (i = s; i <= e; i += 1)` loop. -/
def rangeIncl (s e : Nat) : List Nat := (List.range (e + 1 - s)).map (fun k => k + s)

/-- The `sheetToArray` helper (render.ts lines 369-388): walk the declared
range row-major; a missing cell contributes the empty string, a present cell
its value. -/
def sheetToArray (sheet : Sheet) : List (List String) :=
  match sheet.ref with
  | none => []
  | some r =>
    (rangeIncl r.sr r.er).map (fun rowNum =>
      (rangeIncl r.sc r.ec).map (fun colNum =>
        match sheet.cells rowNum colNum with
        | none => ""
        | some v => v))

/-- Modelled from the library contract `readFirstSheet` relies on:
`XLSX.readFile(path, { sheetRows: k })` parses only the first `k` physical rows
of each sheet, so the parsed sheet's declared row range ends no later than row
`k - 1`; columns and cell contents are unaffected. -/
def truncateRows (sheet : Sheet) (k : Nat) : Sheet :=
  { sheet with ref := sheet.ref.map (fun r => { r with er := min r.er (k - 1) }) }

/-- The `arr.forEach((r, i) => { row[i] = r; })` row construction: a `RowMap`
defined exactly at the positions of the rectangularized array. -/
def toRowMap (arr : List String) : RowMap := fun i => arr.get? i

/-- The `readFirstSheet` reader (render.ts lines 390-407): read at most
`rowsLimit + 1` physical rows of the first sheet, drop the header row, and turn
each remaining array into a `RowMap`. -/
def readFirstSheet (sheet : Sheet) (rowsLimit : Nat) : List RowMap :=
  let headerOffset := 1
  let sheetRows := rowsLimit + headerOffset
  ((sheetToArray (truncateRows sheet sheetRows)).drop headerOffset).map toRowMap

/-! ### The form field populator (both revisions of `renderForm`)

PDF form fields are modelled as a tagged variant mirroring the pdf-lib classes;
a form is the list of (fully qualified name, field) pairs returned by
`pdfForm.getFields()`.  `fieldMap[f.getName()] = f` (a `forEach` overwrite, so
a later entry shadows an earlier one of the same name) is `lookupField`; the
mutation performed by a `pdfForm.getX(key)` accessor is `updateField`.  Each
performed mutation is also logged as an `Update` so that the two revisions can
be compared update-by-update. -/

/-- A pdf-lib form field.  `other` stands for any unsupported field class
(e.g. `PDFSignature`, `PDFButton`), carrying its runtime class name. -/
inductive Field where
  | textField (text : Option String)
  | checkBox (checked : Bool)
  | radioGroup (options : List String) (selected : Option String)
  | optionList (options : List String) (selected : List String)
  | dropdown (options : List String) (selected : List String)
  | other (className : String)
deriving DecidableEq, Repr

abbrev Form := List (String × Field)

/-- `FormMap = Record<string, number>`, iterated in key insertion order;
`-1` is the unmapped sentinel. -/
abbrev FormMap := List (String × Int)

/-- One form-field mutation, as issued by either revision of `renderForm`. -/
inductive Update where
  | setText (key value : String)
  | check (key : String)
  | uncheck (key : String)
  | selectRadio (key value : String)
  | selectOption (key value : String)
  | selectDropdown (key value : String)
deriving DecidableEq, Repr

/-- `row[index]` for an `Int` index: negative JS keys are never present in a
`RowMap` built by `readFirstSheet`. -/
def rowVal (row : RowMap) (index : Int) : Option String :=
  if 0 ≤ index then row index.toNat else none

/-- The `fieldMap[key]` lookup: later `getFields()` entries overwrite earlier
ones of the same name. -/
def lookupField : Form → String → Option Field
  | [], _ => none
  | p :: rest, key =>
    match lookupField rest key with
    | some f => some f
    | none => if p.1 = key then some p.2 else none

/-- The mutation of the field object named `key` (field names in a PDF form are
unique; every entry carrying the name is replaced). -/
def updateField (form : Form) (key : String) (f : Field) : Form :=
  form.map (fun p => if p.1 = key then (p.1, f) else p)

/-- The `getFieldType` classifier of the current revision (render.ts lines
418-435): `instanceof` dispatch; anything unsupported (including an undefined
`fieldMap[key]`) yields the empty tag. -/
def getFieldType : Option Field → String
  | some (Field.textField _) => "TextField"
  | some (Field.checkBox _) => "CheckBox"
  | some (Field.radioGroup _ _) => "RadioGroup"
  | some (Field.optionList _ _) => "OptionList"
  | some (Field.dropdown _ _) => "Dropdown"
  | _ => ""

/-- The runtime class name read by the earlier revision's
`field.constructor.name` dispatch. -/
def constructorName : Field → String
  | Field.textField _ => "PDFTextField"
  | Field.checkBox _ => "PDFCheckBox"
  | Field.radioGroup _ _ => "PDFRadioGroup"
  | Field.optionList _ _ => "PDFOptionList"
  | Field.dropdown _ _ => "PDFDropdown"
  | Field.other c => c

/-- `pdfForm.getTextField(key).setText(value)`: the accessor throws unless the
named field exists and is a text field. -/
def setTextByKey (form : Form) (key value : String) :
    Except String (Form × List Update) :=
  match lookupField form key with
  | some (Field.textField _) =>
    Except.ok (updateField form key (Field.textField (some value)), [Update.setText key value])
  | _ => Except.error "getTextField: no such text field"

/-- The checkbox arm: `if (value && value.toLowerCase() === 'true')` check,
else uncheck; both branches go through `pdfForm.getCheckBox(key)`. -/
def setCheckBoxByKey (form : Form) (key value : String) :
    Except String (Form × List Update) :=
  if value ≠ "" ∧ value.toLower = "true" then
    match lookupField form key with
    | some (Field.checkBox _) =>
      Except.ok (updateField form key (Field.checkBox true), [Update.check key])
    | _ => Except.error "getCheckBox: no such check box"
  else
    match lookupField form key with
    | some (Field.checkBox _) =>
      Except.ok (updateField form key (Field.checkBox false), [Update.uncheck key])
    | _ => Except.error "getCheckBox: no such check box"

/-- The radio-group arm: select only when
`pdfForm.getRadioGroup(key).getOptions().includes(value)`; otherwise leave the
form untouched (`select` itself would throw on a value outside the options). -/
def selectRadioByKey (form : Form) (key value : String) :
    Except String (Form × List Update) :=
  match lookupField form key with
  | some (Field.radioGroup opts _) =>
    if value ∈ opts then
      Except.ok (updateField form key (Field.radioGroup opts (some value)),
        [Update.selectRadio key value])
    else
      Except.ok (form, [])
  | _ => Except.error "getRadioGroup: no such radio group"

/-- The option-list arm, guarded by `getOptions().includes(value)`; a `select`
replaces the selection. -/
def selectOptionListByKey (form : Form) (key value : String) :
    Except String (Form × List Update) :=
  match lookupField form key with
  | some (Field.optionList opts _) =>
    if value ∈ opts then
      Except.ok (updateField form key (Field.optionList opts [value]),
        [Update.selectOption key value])
    else
      Except.ok (form, [])
  | _ => Except.error "getOptionList: no such option list"

/-- The dropdown arm, guarded by `getOptions().includes(value)`. -/
def selectDropdownByKey (form : Form) (key value : String) :
    Except String (Form × List Update) :=
  match lookupField form key with
  | some (Field.dropdown opts _) =>
    if value ∈ opts then
      Except.ok (updateField form key (Field.dropdown opts [value]),
        [Update.selectDropdown key value])
    else
      Except.ok (form, [])
  | _ => Except.error "getDropdown: no such dropdown"

/-- One key of the earlier revision's `renderForm` (render.ts lines 112-149):
skip the `-1` sentinel, coerce `row[index]` with a bare template literal (an
absent value becomes the string "undefined"), then dispatch on
`field.constructor.name` — reading it from an undefined `fieldMap[key]` throws. -/
def renderFormOldStep (row : RowMap) (form : Form) (key : String) (index : Int) :
    Except String (Form × List Update) :=
  if index = -1 then Except.ok (form, [])
  else
    let value := jsStringOfCell (rowVal row index)
    match lookupField form key with
    | none => Except.error "TypeError: cannot read constructor of undefined"
    | some field =>
      match constructorName field with
      | "PDFTextField" => setTextByKey form key value
      | "PDFCheckBox" => setCheckBoxByKey form key value
      | "PDFRadioGroup" => selectRadioByKey form key value
      | "PDFOptionList" => selectOptionListByKey form key value
      | "PDFDropdown" => selectDropdownByKey form key value
      | _ => Except.ok (form, [])

/-- One key of the current revision's `renderForm` (render.ts lines 446-486):
skip the sentinel and any undefined/null row value, then dispatch on
`getFieldType(fieldMap[key])` (an undefined field classifies as unsupported and
is skipped). -/
def renderFormNewStep (row : RowMap) (form : Form) (key : String) (index : Int) :
    Except String (Form × List Update) :=
  let value? := rowVal row index
  if index = -1 ∨ value? = none then Except.ok (form, [])
  else
    let value := jsStringOfCell value?
    match getFieldType (lookupField form key) with
    | "TextField" => setTextByKey form key value
    | "CheckBox" => setCheckBoxByKey form key value
    | "RadioGroup" => selectRadioByKey form key value
    | "OptionList" => selectOptionListByKey form key value
    | "Dropdown" => selectDropdownByKey form key value
    | _ => Except.ok (form, [])

/-- The `Object.keys(formData).forEach` iteration shared by both revisions: a
thrown exception aborts the whole populate step; performed updates are logged
in order. -/
def renderFormRun (step : Form → String → Int → Except String (Form × List Update)) :
    FormMap → Form → List Update → Except String (Form × List Update)
  | [], form, log => Except.ok (form, log)
  | kv :: rest, form, log =>
    match step form kv.1 kv.2 with
    | Except.error e => Except.error e
    | Except.ok (form', us) => renderFormRun step rest form' (log ++ us)

/-- The earlier revision's `renderForm`: no-op unless both the form and the
mapping are present. -/
def renderFormOld (row : RowMap) (formData : Option FormMap) (form : Form) :
    Except String (Form × List Update) :=
  match formData with
  | none => Except.ok (form, [])
  | some fd => renderFormRun (renderFormOldStep row) fd form []

/-- The current revision's `renderForm`: `if (!pdfForm || !formData) return`. -/
def renderFormNew (row : RowMap) (formData : Option FormMap) (form : Form) :
    Except String (Form × List Update) :=
  match formData with
  | none => Except.ok (form, [])
  | some fd => renderFormRun (renderFormNewStep row) fd form []

/-! ### Sample inputs used by the concrete theorems -/

/-- Degenerate metrics: every height is 0 (so the baseline offset vanishes). -/
def zeroMetrics : Metrics := fun _ _ _ => 0

/-- A row with no values at all (every lookup is a JS `undefined`). -/
def sampleRow : RowMap := fun _ => none

/-- A text overlay element with every optional property absent, reading
column 0. -/
def sampleBox : Textbox := ⟨0, none, none, none, none, none, none, "#000000", none, none⟩

/-- A combined-mode merge of two rows over a one-element text overlay on a
1×1-point page authored at canvas width 1. -/
def combinedRun : LoopState × Nat :=
  renderPdfM zeroMetrics ['o', '.', 'p', 'd', 'f'] 1 1 [sampleRow, sampleRow] true
    (some [CanvasObj.text sampleBox]) (some 1)

/-- C1: REFUTED on the code — `renderPdf` resets `cachedFonts` only in the
split branch, so in combined mode the cache survives the per-row template
reload.  In the two-row combined run, the second row is rendered against
working-document generation 1, yet `getFont` returns the handle
`("Helvetica", 0)` embedded into the generation-0 document of the first row,
and after the final reload the cache still holds that stale handle. -/
theorem fontCache_not_reset_on_combined_reload :
    combinedRun.1.drawsLog.map (fun p => (p.1, p.2.map DrawOp.font)) =
      [(0, [("Helvetica", 0)]), (1, [("Helvetica", 0)])]
    ∧ combinedRun.1.cache = [("Helvetica", ("Helvetica", 0))]
    ∧ combinedRun.1.docGen = 2 := by
  decide

/-- C2: REFUTED on the code — for a text element whose column index has no
value in the row, `String(row[o.index])` already produces the literal string
"undefined", which is truthy, so the later `text || ''` guard never fires and
the literal is handed to the layout/draw step. -/
theorem missing_value_draws_undefined_literal :
    (renderPageM zeroMetrics sampleRow 1 1 0 []
      (some [CanvasObj.text sampleBox]) (some 1)).1.map DrawOp.text = ["undefined"] := by
  decide

/-- C9: if the overlay description is absent, or the authoring canvas width is
undefined or zero, `renderPage` returns before computing
`ratio = width / canvasWidth`: no drawing happens, the cache is untouched, and
no error is raised. -/
theorem renderPage_skips_without_canvas (m : Metrics) (row : RowMap) (pageW pageH : ℚ)
    (docGen : Nat) (cache : FontMap) (canvasData : Option (List CanvasObj))
    (canvasWidth : Option ℚ)
    (h : canvasData = none ∨ canvasWidth = none ∨ canvasWidth = some 0) :
    renderPageM m row pageW pageH docGen cache canvasData canvasWidth = ([], cache) := by
  rcases h with rfl | rfl | rfl
  · cases canvasWidth <;> rfl
  · cases canvasData <;> rfl
  · cases canvasData with
    | none => rfl
    | some objs => simp [renderPageM]

/-- Witness for C9 at a concrete input: zero canvas width. -/
theorem renderPage_skips_without_canvas_witness :
    renderPageM zeroMetrics sampleRow 1 1 0 [] (some []) (some 0) = ([], []) :=
  renderPage_skips_without_canvas zeroMetrics sampleRow 1 1 0 [] (some []) (some 0)
    (Or.inr (Or.inr rfl))

/-! ### Coordinate translation (C4, C5) -/

theorem jsNumOr_some_ne {x : ℚ} (d : ℚ) (h : x ≠ 0) : jsNumOr (some x) d = x := by
  simp [jsNumOr, h]

theorem jsNumOr_some_zero_default (x : ℚ) : jsNumOr (some x) 0 = x := by
  unfold jsNumOr
  split <;> simp_all

theorem lookupCache_wf (cache : FontMap) (key : String)
    (hwf : ∀ p ∈ cache, p.2.1 = p.1) (h : FontHandle)
    (hc : lookupCache cache key = some h) : h.1 = key := by
  induction cache with
  | nil => simp [lookupCache] at hc
  | cons p rest ih =>
    by_cases hp : p.1 = key
    · rw [lookupCache, if_pos hp] at hc
      obtain rfl : p.2 = h := Option.some_inj.mp hc
      rw [hwf p (List.mem_cons_self p rest), hp]
    · rw [lookupCache, if_neg hp] at hc
      exact ih (fun q hq => hwf q (List.mem_cons_of_mem p hq)) hc

/-- In a well-formed cache (every stored handle is keyed by its own font name),
the handle `getFont` returns is always for the requested key. -/
theorem getFontM_key (f : Option String) (docGen : Nat) (cache : FontMap)
    (hwf : ∀ p ∈ cache, p.2.1 = p.1) :
    ((getFontM f docGen cache).1).1 = fontKey f := by
  cases hc : lookupCache cache (fontKey f) with
  | none => simp [getFontM, hc]
  | some h =>
    simp only [getFontM, hc]
    exact lookupCache_wf cache (fontKey f) hwf h hc

/-- A text element whose authored font size is 0 (geometry otherwise present):
the JS numeric default `o.fontSize || 16` replaces the 0 before scaling. -/
def zeroFontBox : Textbox :=
  ⟨0, some 0, some 0, some 1, some 1, some 0, none, "#000000", none, none⟩

/-- Counterexample to C4 as stated: at `fontSize = 0`, `pageWidth = 1`,
canvas width 1 (so `ratio = 1`), the code computes `size = 16`, not
`fontSize * ratio = 0`. -/
theorem draw_geometry_fontSize_zero_counterexample :
    (textOp zeroMetrics 1 1 1 sampleRow 0 [] zeroFontBox).1.size ≠ (0 : ℚ) * (1 / 1) := by
  simp [textOp, zeroFontBox, jsNumOr]

/-- C4 (amended): for a text element with present geometry and a nonzero font
size, the draw geometry is `ratio = pageWidth / w`, `size = fontSize * ratio`,
`x = left * ratio + 1`, and
`y = pageHeight - top * ratio - height * ratio + offset` with
`offset = heightAtSize(size) - heightAtSize(size, descender excluded)` for the
element's font; a zero (or absent) font size is first replaced by the default
16. -/
theorem draw_geometry_formula_amended (m : Metrics) (pageW pageH w : ℚ) (row : RowMap)
    (docGen : Nat) (cache : FontMap) (idx : Nat) (l t wd ht fs : ℚ) (ff : Option String)
    (fl : String) (ta : Option String) (lh : Option ℚ)
    (hwf : ∀ p ∈ cache, p.2.1 = p.1) (hw : w ≠ 0) (hfs : fs ≠ 0) :
    (textOp m pageW pageH w row docGen cache
        ⟨idx, some l, some t, some wd, some ht, some fs, ff, fl, ta, lh⟩).1.size
        = fs * (pageW / w)
    ∧ (textOp m pageW pageH w row docGen cache
        ⟨idx, some l, some t, some wd, some ht, some fs, ff, fl, ta, lh⟩).1.x
        = l * (pageW / w) + 1
    ∧ (textOp m pageW pageH w row docGen cache
        ⟨idx, some l, some t, some wd, some ht, some fs, ff, fl, ta, lh⟩).1.y
        = pageH - t * (pageW / w) - ht * (pageW / w)
          + (m (fontKey ff) (fs * (pageW / w)) true
             - m (fontKey ff) (fs * (pageW / w)) false) := by
  have hkey := getFontM_key ff docGen cache hwf
  refine ⟨?_, ?_, ?_⟩ <;>
    simp [textOp, hkey, jsNumOr_some_ne _ hfs, jsNumOr_some_zero_default]

/-- Witness for the amended C4 at a concrete input. -/
theorem draw_geometry_formula_amended_witness :
    (2 : ℚ) ≠ 0 ∧ (3 : ℚ) ≠ 0
    ∧ ((textOp zeroMetrics 10 20 2 sampleRow 0 []
          ⟨0, some 1, some 4, some 5, some 6, some 3, none, "#000000", none, none⟩).1.size
        = 3 * (10 / 2)
      ∧ (textOp zeroMetrics 10 20 2 sampleRow 0 []
          ⟨0, some 1, some 4, some 5, some 6, some 3, none, "#000000", none, none⟩).1.x
        = 1 * (10 / 2) + 1
      ∧ (textOp zeroMetrics 10 20 2 sampleRow 0 []
          ⟨0, some 1, some 4, some 5, some 6, some 3, none, "#000000", none, none⟩).1.y
        = 20 - 4 * (10 / 2) - 6 * (10 / 2)
          + (zeroMetrics (fontKey none) (3 * (10 / 2)) true
             - zeroMetrics (fontKey none) (3 * (10 / 2)) false)) :=
  ⟨by norm_num, by norm_num,
    draw_geometry_formula_amended zeroMetrics 10 20 2 sampleRow 0 [] 0 1 4 5 6 3 none
      "#000000" none none (by intro p hp; cases hp) (by norm_num) (by norm_num)⟩

/-- The doubling of C5: twice the authoring canvas width together with twice
the element's left, top, width, height and font size. -/
def doubleBox (o : Textbox) : Textbox :=
  { o with left := o.left.map (fun v => 2 * v),
           top := o.top.map (fun v => 2 * v),
           width := o.width.map (fun v => 2 * v),
           height := o.height.map (fun v => 2 * v),
           fontSize := o.fontSize.map (fun v => 2 * v) }

/-- Counterexample to C5 as stated: for an element with `fontSize = 0` the
default 16 does not scale, so doubling the canvas width and the element
geometry halves the computed text size (1600 vs 800 at page width 100,
canvas width 1). -/
theorem scale_invariance_counterexample :
    (textOp zeroMetrics 100 0 (2 * 1) sampleRow 0 [] (doubleBox zeroFontBox)).1.size ≠
      (textOp zeroMetrics 100 0 1 sampleRow 0 [] zeroFontBox).1.size := by
  simp [textOp, doubleBox, zeroFontBox, jsNumOr]
  norm_num

theorem double_mul_half_ratio (pageW w a : ℚ) (hw : w ≠ 0) :
    2 * a * (pageW / (2 * w)) = a * (pageW / w) := by
  field_simp
  ring

theorem jsNumOr_double_zero (pageW w : ℚ) (hw : w ≠ 0) (v : Option ℚ) :
    jsNumOr (v.map (fun x => 2 * x)) 0 * (pageW / (2 * w)) =
      jsNumOr v 0 * (pageW / w) := by
  cases v with
  | none => simp [jsNumOr]
  | some a =>
    by_cases ha : a = 0
    · subst ha; simp [jsNumOr]
    · rw [Option.map_some', jsNumOr_some_ne _ (by exact mul_ne_zero two_ne_zero ha),
        jsNumOr_some_zero_default, double_mul_half_ratio pageW w a hw]

theorem jsNumOr_double_ne (pageW w a d : ℚ) (hw : w ≠ 0) (ha : a ≠ 0) :
    jsNumOr (some (2 * a)) d * (pageW / (2 * w)) = jsNumOr (some a) d * (pageW / w) := by
  rw [jsNumOr_some_ne _ (mul_ne_zero two_ne_zero ha), jsNumOr_some_ne _ ha,
    double_mul_half_ratio pageW w a hw]

/-- C5 (amended): the coordinate translation is scale-invariant for every text
element whose font size, width and height are present and nonzero: doubling the
canvas width along with the element's left, top, width, height and font size
yields the identical draw operation (and cache effect).  For a zero/absent font
size, width or height the JS default (16 resp. 100) does not scale, which
breaks the invariance (see the counterexample). -/
theorem scale_invariance_amended (m : Metrics) (pageW pageH w : ℚ) (row : RowMap)
    (docGen : Nat) (cache : FontMap) (o : Textbox) (hw : w ≠ 0)
    (hfs : ∃ x, o.fontSize = some x ∧ x ≠ 0)
    (hwd : ∃ x, o.width = some x ∧ x ≠ 0)
    (hht : ∃ x, o.height = some x ∧ x ≠ 0) :
    textOp m pageW pageH (2 * w) row docGen cache (doubleBox o) =
      textOp m pageW pageH w row docGen cache o := by
  obtain ⟨fs, hfso, hfs0⟩ := hfs
  obtain ⟨wd, hwdo, hwd0⟩ := hwd
  obtain ⟨ht, hhto, hht0⟩ := hht
  have hsize : jsNumOr (o.fontSize.map (fun v => 2 * v)) 16 * (pageW / (2 * w)) =
      jsNumOr o.fontSize 16 * (pageW / w) := by
    rw [hfso, Option.map_some']
    exact jsNumOr_double_ne pageW w fs 16 hw hfs0
  unfold textOp
  simp only [doubleBox]
  refine Prod.ext ?_ rfl
  simp only [DrawOp.mk.injEq]
  refine ⟨trivial, ?_, ?_, hsize, trivial, ?_, ?_, trivial, trivial, trivial⟩
  · rw [jsNumOr_double_zero pageW w hw o.left]
  · rw [jsNumOr_double_zero pageW w hw o.top, jsNumOr_double_zero pageW w hw o.height,
      hsize]
  · rw [hwdo, Option.map_some']
    exact jsNumOr_double_ne pageW w wd 100 hw hwd0
  · rw [hhto, Option.map_some']
    exact jsNumOr_double_ne pageW w ht 100 hw hht0

/-- Witness for the amended C5 at a concrete input. -/
theorem scale_invariance_amended_witness :
    (5 : ℚ) ≠ 0
    ∧ textOp zeroMetrics 10 20 (2 * 5) sampleRow 0 []
        (doubleBox ⟨0, some 1, some 1, some 2, some 2, some 4, none, "#000000", some "center", none⟩) =
      textOp zeroMetrics 10 20 5 sampleRow 0 []
        ⟨0, some 1, some 1, some 2, some 2, some 4, none, "#000000", some "center", none⟩ :=
  ⟨by norm_num,
    scale_invariance_amended zeroMetrics 10 20 5 sampleRow 0 []
      ⟨0, some 1, some 1, some 2, some 2, some 4, none, "#000000", some "center", none⟩
      (by norm_num) ⟨4, rfl, by norm_num⟩ ⟨2, rfl, by norm_num⟩ ⟨2, rfl, by norm_num⟩⟩

/-! ### Assembler invariants (C3, C6) -/

theorem assembleStep_true_written (m : Metrics) (output : List Char) (pageW pageH : ℚ)
    (rows : List RowMap) (cd : Option (List CanvasObj)) (cw : Option ℚ)
    (s : LoopState) (i : Nat) :
    (assembleStep m true output pageW pageH rows cd cw s i).written = s.written :=
  rfl

theorem assembleStep_true_outPages (m : Metrics) (output : List Char) (pageW pageH : ℚ)
    (rows : List RowMap) (cd : Option (List CanvasObj)) (cw : Option ℚ)
    (s : LoopState) (i : Nat) :
    (assembleStep m true output pageW pageH rows cd cw s i).outPages = s.outPages ++ [i] :=
  rfl

theorem assembleStep_false_written (m : Metrics) (output : List Char) (pageW pageH : ℚ)
    (rows : List RowMap) (cd : Option (List CanvasObj)) (cw : Option ℚ)
    (s : LoopState) (i : Nat) :
    (assembleStep m false output pageW pageH rows cd cw s i).written =
      s.written ++ [(outputName output (i + 1), s.outPages ++ [i])] :=
  rfl

theorem assembleStep_false_outPages (m : Metrics) (output : List Char) (pageW pageH : ℚ)
    (rows : List RowMap) (cd : Option (List CanvasObj)) (cw : Option ℚ)
    (s : LoopState) (i : Nat) :
    (assembleStep m false output pageW pageH rows cd cw s i).outPages = [] :=
  rfl

theorem assembleStep_false_cache (m : Metrics) (output : List Char) (pageW pageH : ℚ)
    (rows : List RowMap) (cd : Option (List CanvasObj)) (cw : Option ℚ)
    (s : LoopState) (i : Nat) :
    (assembleStep m false output pageW pageH rows cd cw s i).cache = [] :=
  rfl

/-- In combined mode the loop never flushes: nothing is written and the output
document accumulates one page per row, in source order. -/
theorem combined_fold_invariant (m : Metrics) (output : List Char) (pageW pageH : ℚ)
    (rows : List RowMap) (cd : Option (List CanvasObj)) (cw : Option ℚ)
    (s : LoopState) (n : Nat) :
    ((List.range n).foldl (assembleStep m true output pageW pageH rows cd cw) s).written
      = s.written
    ∧ ((List.range n).foldl (assembleStep m true output pageW pageH rows cd cw) s).outPages
      = s.outPages ++ List.range n := by
  induction n with
  | zero => simp
  | succ k ih =>
    rw [List.range_succ, List.foldl_append, List.foldl_cons, List.foldl_nil]
    refine ⟨?_, ?_⟩
    · rw [assembleStep_true_written, ih.1]
    · rw [assembleStep_true_outPages, ih.2, List.append_assoc]

/-- In split mode every iteration flushes exactly the one page of its row under
the derived name, and resets the accumulator and the font cache. -/
theorem split_fold_invariant (m : Metrics) (output : List Char) (pageW pageH : ℚ)
    (rows : List RowMap) (cd : Option (List CanvasObj)) (cw : Option ℚ) (n : Nat) :
    ((List.range n).foldl (assembleStep m false output pageW pageH rows cd cw) sInit).written
      = (List.range n).map (fun i => (outputName output (i + 1), [i]))
    ∧ ((List.range n).foldl (assembleStep m false output pageW pageH rows cd cw) sInit).outPages
      = []
    ∧ ((List.range n).foldl (assembleStep m false output pageW pageH rows cd cw) sInit).cache
      = [] := by
  induction n with
  | zero => simp [sInit]
  | succ k ih =>
    rw [List.range_succ, List.foldl_append, List.foldl_cons, List.foldl_nil]
    refine ⟨?_, assembleStep_false_outPages _ _ _ _ _ _ _ _ _,
      assembleStep_false_cache _ _ _ _ _ _ _ _ _⟩
    rw [assembleStep_false_written, ih.1, ih.2.1, List.map_append]
    rfl

/-- Combined mode writes exactly one file, to `output`, holding one page per
row in source order, and reports one flushed file. -/
theorem renderPdfM_combined (m : Metrics) (output : List Char) (pageW pageH : ℚ)
    (rows : List RowMap) (cd : Option (List CanvasObj)) (cw : Option ℚ) :
    (renderPdfM m output pageW pageH rows true cd cw).1.written
      = [(output, List.range rows.length)]
    ∧ (renderPdfM m output pageW pageH rows true cd cw).2 = 1 := by
  have h := combined_fold_invariant m output pageW pageH rows cd cw sInit rows.length
  unfold renderPdfM
  simp only [if_pos rfl]
  exact ⟨by rw [h.1, h.2]; rfl, rfl⟩

/-- Split mode writes one single-page file per row under the derived per-row
name and reports the row count. -/
theorem renderPdfM_split (m : Metrics) (output : List Char) (pageW pageH : ℚ)
    (rows : List RowMap) (cd : Option (List CanvasObj)) (cw : Option ℚ) :
    (renderPdfM m output pageW pageH rows false cd cw).1.written
      = (List.range rows.length).map (fun i => (outputName output (i + 1), [i]))
    ∧ (renderPdfM m output pageW pageH rows false cd cw).2 = rows.length := by
  have h := split_fold_invariant m output pageW pageH rows cd cw rows.length
  unfold renderPdfM
  exact ⟨h.1, rfl⟩

/-- C3: for every data source of N rows (N ≥ 1), combined mode writes exactly
one output file with exactly N pages, one per row in source order, and returns
1; split mode writes exactly N single-page files (row i's page alone, under the
row-i name) and returns N. -/
theorem renderPdf_output_counts (m : Metrics) (output : List Char) (pageW pageH : ℚ)
    (rows : List RowMap) (cd : Option (List CanvasObj)) (cw : Option ℚ)
    (hN : 1 ≤ rows.length) :
    ((renderPdfM m output pageW pageH rows true cd cw).1.written
        = [(output, List.range rows.length)]
      ∧ (renderPdfM m output pageW pageH rows true cd cw).2 = 1)
    ∧ ((renderPdfM m output pageW pageH rows false cd cw).1.written
        = (List.range rows.length).map (fun i => (outputName output (i + 1), [i]))
      ∧ (renderPdfM m output pageW pageH rows false cd cw).2 = rows.length) :=
  ⟨renderPdfM_combined m output pageW pageH rows cd cw,
    renderPdfM_split m output pageW pageH rows cd cw⟩

/-- Witness for C3 on a concrete two-row merge. -/
theorem renderPdf_output_counts_witness :
    1 ≤ [sampleRow, sampleRow].length
    ∧ (((renderPdfM zeroMetrics ['o'] 1 1 [sampleRow, sampleRow] true none none).1.written
          = [(['o'], List.range 2)]
        ∧ (renderPdfM zeroMetrics ['o'] 1 1 [sampleRow, sampleRow] true none none).2 = 1)
      ∧ ((renderPdfM zeroMetrics ['o'] 1 1 [sampleRow, sampleRow] false none none).1.written
          = (List.range 2).map (fun i => (outputName ['o'] (i + 1), [i]))
        ∧ (renderPdfM zeroMetrics ['o'] 1 1 [sampleRow, sampleRow] false none none).2 = 2)) :=
  ⟨by decide,
    renderPdf_output_counts zeroMetrics ['o'] 1 1 [sampleRow, sampleRow] none none (by decide)⟩

/-! ### Naming lemmas (C6) -/

theorem splitOnDot_ne_nil (l : List Char) : splitOnDot l ≠ [] := by
  cases l with
  | nil => simp [splitOnDot]
  | cons c cs =>
    rw [splitOnDot]
    by_cases hc : c = '.'
    · simp [hc]
    · rw [if_neg hc]
      cases splitOnDot cs <;> simp

theorem splitOnDot_append_dot (a b : List Char) :
    splitOnDot (a ++ '.' :: b) = splitOnDot a ++ splitOnDot b := by
  induction a with
  | nil => simp [splitOnDot]
  | cons c cs ih =>
    by_cases hc : c = '.'
    · subst hc
      rw [List.cons_append, splitOnDot, if_pos rfl, ih, splitOnDot, if_pos rfl,
        List.cons_append]
    · rw [List.cons_append, splitOnDot, if_neg hc, ih]
      rw [splitOnDot, if_neg hc]
      cases hs : splitOnDot cs with
      | nil => exact absurd hs (splitOnDot_ne_nil cs)
      | cons hd tl => simp

theorem splitOnDot_no_dot (b : List Char) (hb : '.' ∉ b) : splitOnDot b = [b] := by
  induction b with
  | nil => rfl
  | cons c cs ih =>
    have hc : c ≠ '.' := fun h => hb (h ▸ List.mem_cons_self c cs)
    have hcs : '.' ∉ cs := fun h => hb (List.mem_cons_of_mem c h)
    rw [splitOnDot, if_neg hc, ih hcs]

theorem joinDot_cons_cons (x y : List Char) (ys : List (List Char)) :
    joinDot (x :: y :: ys) = x ++ '.' :: joinDot (y :: ys) :=
  rfl

theorem joinDot_splitOnDot (l : List Char) : joinDot (splitOnDot l) = l := by
  induction l with
  | nil => rfl
  | cons c cs ih =>
    by_cases hc : c = '.'
    · subst hc
      rw [splitOnDot, if_pos rfl]
      cases hs : splitOnDot cs with
      | nil => exact absurd hs (splitOnDot_ne_nil cs)
      | cons hd tl =>
        rw [joinDot_cons_cons, List.nil_append]
        rw [hs] at ih
        exact congrArg (List.cons '.') ih
    · rw [splitOnDot, if_neg hc]
      cases hs : splitOnDot cs with
      | nil => exact absurd hs (splitOnDot_ne_nil cs)
      | cons hd tl =>
        rw [hs] at ih
        cases tl with
        | nil =>
          rw [joinDot] at ih ⊢
          exact congrArg (List.cons c) ih
        | cons t ts =>
          rw [joinDot_cons_cons] at ih
          rw [joinDot_cons_cons, List.cons_append]
          exact congrArg (List.cons c) ih

/-- For an output path with a final dot-free extension, the split-mode name is
the path with `-{n}` inserted before the extension. -/
theorem outputName_ext (base ext : List Char) (hext : '.' ∉ ext) (n : Nat) :
    outputName (base ++ '.' :: ext) n =
      base ++ '-' :: Nat.toDigits 10 n ++ '.' :: ext := by
  unfold outputName
  simp only [splitOnDot_append_dot, splitOnDot_no_dot ext hext]
  rw [List.dropLast_concat, List.getLast?_concat, joinDot_splitOnDot]
  rfl

/-- C6: in split mode the file for 1-based row number i is named by inserting
`-i` before the output path's final (dot-free) extension, so
`a/b.pdf` yields `a/b-i.pdf`; in combined mode the single file is written
exactly to the given output path. -/
theorem output_naming (m : Metrics) (pageW pageH : ℚ) (rows : List RowMap)
    (cd : Option (List CanvasObj)) (cw : Option ℚ) (base ext output : List Char)
    (hext : '.' ∉ ext) :
    (renderPdfM m (base ++ '.' :: ext) pageW pageH rows false cd cw).1.written.map Prod.fst
      = (List.range rows.length).map
          (fun i => base ++ '-' :: Nat.toDigits 10 (i + 1) ++ '.' :: ext)
    ∧ (renderPdfM m output pageW pageH rows true cd cw).1.written.map Prod.fst
      = [output] := by
  refine ⟨?_, ?_⟩
  · rw [(renderPdfM_split m (base ++ '.' :: ext) pageW pageH rows cd cw).1, List.map_map]
    exact List.map_congr_left (fun i _ => by
      simp only [Function.comp]
      exact outputName_ext base ext hext (i + 1))
  · rw [(renderPdfM_combined m output pageW pageH rows cd cw).1]
    rfl

/-- Witness for C6: output `a/b.pdf`, two rows, split and combined. -/
theorem output_naming_witness :
    ('.' ∉ ['p', 'd', 'f'])
    ∧ ((renderPdfM zeroMetrics (['a', '/', 'b'] ++ '.' :: ['p', 'd', 'f']) 1 1
          [sampleRow, sampleRow] false none none).1.written.map Prod.fst
        = (List.range 2).map
            (fun i => ['a', '/', 'b'] ++ '-' :: Nat.toDigits 10 (i + 1) ++ '.' :: ['p', 'd', 'f'])
      ∧ (renderPdfM zeroMetrics ['x'] 1 1 [sampleRow, sampleRow] true none none).1.written.map Prod.fst
        = [['x']]) :=
  ⟨by decide,
    output_naming zeroMetrics 1 1 [sampleRow, sampleRow] none none ['a', '/', 'b']
      ['p', 'd', 'f'] ['x'] (by decide)⟩

/-! ### Row reader lemmas (C7) -/

theorem rangeIncl_length (s e : Nat) : (rangeIncl s e).length = e + 1 - s := by
  simp [rangeIncl]

theorem rangeIncl_get?_lt (s e k : Nat) (h : k < e + 1 - s) :
    (rangeIncl s e).get? k = some (k + s) := by
  rw [rangeIncl, List.get?_map, List.get?_range h]
  rfl

/-- Reading with `sheetRows = rowsLimit + 1` yields at most `rowsLimit + 1`
physical rows. -/
theorem sheetToArray_truncated_length (sheet : Sheet) (rowsLimit : Nat) :
    (sheetToArray (truncateRows sheet (rowsLimit + 1))).length ≤ rowsLimit + 1 := by
  cases href : sheet.ref with
  | none => simp [sheetToArray, truncateRows, href]
  | some r =>
    simp only [sheetToArray, truncateRows, href, Option.map_some', List.length_map,
      rangeIncl_length]
    omega

/-- The produced rows are exactly the physical rows after the header. -/
theorem readFirstSheet_get? (sheet : Sheet) (rowsLimit : Nat) (j : Nat) :
    (readFirstSheet sheet rowsLimit).get? j
      = ((sheetToArray (truncateRows sheet (rowsLimit + 1))).get? (1 + j)).map toRowMap := by
  unfold readFirstSheet
  rw [List.get?_map, List.get?_drop]

/-- Every produced row is total on the declared column range: position `i`
holds the cell value of physical row `sr + 1 + j` at column `sc + i`, with the
empty string for an absent cell. -/
theorem readFirstSheet_rectangular (sheet : Sheet) (rowsLimit : Nat) (j : Nat)
    (mrow : RowMap) (hm : (readFirstSheet sheet rowsLimit).get? j = some mrow)
    (r : SheetRange) (href : sheet.ref = some r) (i : Nat)
    (hi : i < r.ec + 1 - r.sc) :
    mrow i = some ((sheet.cells ((1 + j) + r.sr) (i + r.sc)).getD "") := by
  rw [readFirstSheet_get? sheet rowsLimit j] at hm
  rw [sheetToArray] at hm
  simp only [truncateRows, href, Option.map_some'] at hm
  rw [List.get?_map] at hm
  cases hk : (rangeIncl r.sr (min r.er (rowsLimit + 1 - 1))).get? (1 + j) with
  | none => rw [hk] at hm; simp at hm
  | some rn =>
    rw [hk] at hm
    simp only [Option.map_some', Option.some_inj] at hm
    have hkk := hk
    have hlt : 1 + j < (min r.er (rowsLimit + 1 - 1)) + 1 - r.sr := by
      by_contra hge
      rw [List.get?_eq_none.mpr (by rw [rangeIncl_length]; omega)] at hkk
      exact Option.noConfusion hkk
    rw [rangeIncl_get?_lt _ _ _ hlt] at hkk
    obtain rfl : rn = (1 + j) + r.sr := (Option.some_inj.mp hkk).symm
    subst hm
    unfold toRowMap
    rw [List.get?_map, rangeIncl_get?_lt _ _ _ hi]
    simp only [Option.map_some']
    cases hcell : sheet.cells ((1 + j) + r.sr) (i + r.sc) <;> simp [hcell]

/-- C7: `readFirstSheet` reads at most `rowLimit + 1` physical rows of the
sheet, skips the header (the first physical row), and rectangularizes every
remaining row against the declared column range: every produced row has a value
at every in-range position, the empty string where the sparse representation
has no cell. -/
theorem readFirstSheet_bounded_header_rectangular (sheet : Sheet) (rowsLimit : Nat) :
    (sheetToArray (truncateRows sheet (rowsLimit + 1))).length ≤ rowsLimit + 1
    ∧ (∀ j, (readFirstSheet sheet rowsLimit).get? j
        = ((sheetToArray (truncateRows sheet (rowsLimit + 1))).get? (1 + j)).map toRowMap)
    ∧ (∀ j mrow, (readFirstSheet sheet rowsLimit).get? j = some mrow →
        ∀ r, sheet.ref = some r → ∀ i, i < r.ec + 1 - r.sc →
          mrow i = some ((sheet.cells ((1 + j) + r.sr) (i + r.sc)).getD "")) :=
  ⟨sheetToArray_truncated_length sheet rowsLimit,
    readFirstSheet_get? sheet rowsLimit,
    fun j mrow hm r href i hi =>
      readFirstSheet_rectangular sheet rowsLimit j mrow hm r href i hi⟩

/-- A concrete 6-row two-column sheet: only cell (1,0) is present. -/
def sampleSheet : Sheet :=
  { ref := some ⟨0, 0, 5, 1⟩,
    cells := fun r c => if r = 1 ∧ c = 0 then some "x" else none }

/-- Witness for C7: with `rowLimit = 1` only physical rows 0 and 1 are read,
the header is dropped, and the single produced row is `["x", ""]` — position 1
is the empty string standing for the absent cell (1,1). -/
theorem readFirstSheet_bounded_header_rectangular_witness :
    (readFirstSheet sampleSheet 1).get? 0 = some (toRowMap ["x", ""])
    ∧ toRowMap ["x", ""] 1 = some ((sampleSheet.cells ((1 + 0) + 0) (1 + 0)).getD "") :=
  ⟨rfl,
    (readFirstSheet_bounded_header_rectangular sampleSheet 1).2.2 0 (toRowMap ["x", ""])
      rfl ⟨0, 0, 5, 1⟩ rfl 1 (by decide)⟩

/-! ### Form populator lemmas (C8, C10) -/

theorem rowVal_some_ne_neg_one (row : RowMap) (index : Int) (v : String)
    (hv : rowVal row index = some v) : index ≠ -1 := by
  intro h
  subst h
  simp [rowVal] at hv

/-- C8: for a RadioGroup, OptionList or Dropdown field and a mapped, defined
row value, the populate step of the current `renderForm` never raises: it
selects the value exactly when the value is a member of the field's declared
option set and otherwise leaves the form (in particular that field) completely
unchanged. -/
theorem choice_fields_select_iff_member (row : RowMap) (form : Form) (key : String)
    (index : Int) (v : String) (hv : rowVal row index = some v) :
    (∀ opts sel, lookupField form key = some (Field.radioGroup opts sel) →
      renderFormNewStep row form key index =
        Except.ok (if v ∈ opts then
            (updateField form key (Field.radioGroup opts (some v)), [Update.selectRadio key v])
          else (form, [])))
    ∧ (∀ opts sel, lookupField form key = some (Field.optionList opts sel) →
      renderFormNewStep row form key index =
        Except.ok (if v ∈ opts then
            (updateField form key (Field.optionList opts [v]), [Update.selectOption key v])
          else (form, [])))
    ∧ (∀ opts sel, lookupField form key = some (Field.dropdown opts sel) →
      renderFormNewStep row form key index =
        Except.ok (if v ∈ opts then
            (updateField form key (Field.dropdown opts [v]), [Update.selectDropdown key v])
          else (form, []))) := by
  have hne : index ≠ -1 := rowVal_some_ne_neg_one row index v hv
  refine ⟨?_, ?_, ?_⟩ <;> intro opts sel hlk <;>
    by_cases hmem : v ∈ opts <;>
      simp [renderFormNewStep, hv, hne, hlk, getFieldType, selectRadioByKey,
        selectOptionListByKey, selectDropdownByKey, jsStringOfCell, hmem]

/-- A one-field form with a radio group offering options a and b. -/
def sampleForm : Form := [("r", Field.radioGroup ["a", "b"] none)]

/-- A row whose column 0 holds the string c (not among the options). -/
def sampleRowC : RowMap := fun i => if i = 0 then some "c" else none

/-- Witness for C8: the unmatched value c leaves the radio group untouched. -/
theorem choice_fields_select_iff_member_witness :
    renderFormNewStep sampleRowC sampleForm "r" 0 =
      Except.ok (if "c" ∈ ["a", "b"] then
          (updateField sampleForm "r" (Field.radioGroup ["a", "b"] (some "c")),
            [Update.selectRadio "r" "c"])
        else (sampleForm, [])) :=
  (choice_fields_select_iff_member sampleRowC sampleForm "r" 0 "c" rfl).1 ["a", "b"] none rfl

/-! ### Equivalence of the two renderForm revisions (C10) -/

/-- The capability tag of every field name in a form. -/
def fieldKinds (form : Form) : String → String :=
  fun k => getFieldType (lookupField form k)

/-- The precondition of C10 for one mapping entry: a non-sentinel key resolves
to an existing field of one of the five supported kinds and its column holds a
defined, non-null value. -/
def goodEntry (row : RowMap) (form : Form) (key : String) (index : Int) : Prop :=
  index ≠ -1 → (fieldKinds form key ≠ "" ∧ rowVal row index ≠ none)

theorem lookupField_updateField_self (form : Form) (key : String) (f : Field) :
    lookupField (updateField form key f) key = (lookupField form key).map (fun _ => f) := by
  induction form with
  | nil => rfl
  | cons p rest ih =>
    by_cases hp : p.1 = key
    · simp only [updateField, List.map_cons, if_pos hp, lookupField]
      rw [updateField] at ih
      rw [ih]
      cases lookupField rest key <;> simp [hp]
    · simp only [updateField, List.map_cons, if_neg hp, lookupField]
      rw [updateField] at ih
      rw [ih]
      cases lookupField rest key <;> simp [hp]

theorem lookupField_updateField_ne (form : Form) (key k : String) (f : Field)
    (hk : k ≠ key) :
    lookupField (updateField form key f) k = lookupField form k := by
  induction form with
  | nil => rfl
  | cons p rest ih =>
    by_cases hp : p.1 = key
    · have hpk : p.1 ≠ k := by rw [hp]; exact fun h => hk h.symm
      simp only [updateField, List.map_cons, if_pos hp, lookupField]
      rw [updateField] at ih
      rw [ih]
      cases lookupField rest k <;> simp [hpk]
    · simp only [updateField, List.map_cons, if_neg hp, lookupField]
      rw [updateField] at ih
      rw [ih]

theorem fieldKinds_updateField (form : Form) (key : String) (f f0 : Field)
    (hlk : lookupField form key = some f0)
    (hkind : getFieldType (some f) = getFieldType (some f0)) :
    fieldKinds (updateField form key f) = fieldKinds form := by
  funext k
  by_cases hk : k = key
  · subst hk
    unfold fieldKinds
    rw [lookupField_updateField_self, hlk]
    simpa using hkind
  · unfold fieldKinds
    rw [lookupField_updateField_ne form key k f hk]

theorem setTextByKey_kinds (form : Form) (key value : String) (form' : Form)
    (us : List Update) (h : setTextByKey form key value = Except.ok (form', us)) :
    fieldKinds form' = fieldKinds form := by
  unfold setTextByKey at h
  cases hlk : lookupField form key with
  | none => rw [hlk] at h; simp at h
  | some f0 =>
    rw [hlk] at h
    cases f0 with
    | textField t =>
      simp only [Except.ok.injEq, Prod.mk.injEq] at h
      rw [← h.1]
      exact fieldKinds_updateField form key _ _ hlk rfl
    | checkBox c => simp at h
    | radioGroup a b => simp at h
    | optionList a b => simp at h
    | dropdown a b => simp at h
    | other c => simp at h

theorem setCheckBoxByKey_kinds (form : Form) (key value : String) (form' : Form)
    (us : List Update) (h : setCheckBoxByKey form key value = Except.ok (form', us)) :
    fieldKinds form' = fieldKinds form := by
  unfold setCheckBoxByKey at h
  by_cases hcond : value ≠ "" ∧ value.toLower = "true" <;>
    [rw [if_pos hcond] at h; rw [if_neg hcond] at h] <;>
  · cases hlk : lookupField form key with
    | none => rw [hlk] at h; simp at h
    | some f0 =>
      rw [hlk] at h
      cases f0 with
      | textField t => simp at h
      | checkBox c =>
        simp only [Except.ok.injEq, Prod.mk.injEq] at h
        rw [← h.1]
        exact fieldKinds_updateField form key _ _ hlk rfl
      | radioGroup a b => simp at h
      | optionList a b => simp at h
      | dropdown a b => simp at h
      | other c => simp at h

theorem selectRadioByKey_kinds (form : Form) (key value : String) (form' : Form)
    (us : List Update) (h : selectRadioByKey form key value = Except.ok (form', us)) :
    fieldKinds form' = fieldKinds form := by
  unfold selectRadioByKey at h
  cases hlk : lookupField form key with
  | none => rw [hlk] at h; simp at h
  | some f0 =>
    rw [hlk] at h
    cases f0 with
    | textField t => simp at h
    | checkBox c => simp at h
    | radioGroup opts sel =>
      by_cases hmem : value ∈ opts
      · simp only [if_pos hmem, Except.ok.injEq, Prod.mk.injEq] at h
        rw [← h.1]
        exact fieldKinds_updateField form key _ _ hlk rfl
      · simp only [if_neg hmem, Except.ok.injEq, Prod.mk.injEq] at h
        rw [← h.1]
    | optionList a b => simp at h
    | dropdown a b => simp at h
    | other c => simp at h

theorem selectOptionListByKey_kinds (form : Form) (key value : String) (form' : Form)
    (us : List Update) (h : selectOptionListByKey form key value = Except.ok (form', us)) :
    fieldKinds form' = fieldKinds form := by
  unfold selectOptionListByKey at h
  cases hlk : lookupField form key with
  | none => rw [hlk] at h; simp at h
  | some f0 =>
    rw [hlk] at h
    cases f0 with
    | textField t => simp at h
    | checkBox c => simp at h
    | radioGroup a b => simp at h
    | optionList opts sel =>
      by_cases hmem : value ∈ opts
      · simp only [if_pos hmem, Except.ok.injEq, Prod.mk.injEq] at h
        rw [← h.1]
        exact fieldKinds_updateField form key _ _ hlk rfl
      · simp only [if_neg hmem, Except.ok.injEq, Prod.mk.injEq] at h
        rw [← h.1]
    | dropdown a b => simp at h
    | other c => simp at h

theorem selectDropdownByKey_kinds (form : Form) (key value : String) (form' : Form)
    (us : List Update) (h : selectDropdownByKey form key value = Except.ok (form', us)) :
    fieldKinds form' = fieldKinds form := by
  unfold selectDropdownByKey at h
  cases hlk : lookupField form key with
  | none => rw [hlk] at h; simp at h
  | some f0 =>
    rw [hlk] at h
    cases f0 with
    | textField t => simp at h
    | checkBox c => simp at h
    | radioGroup a b => simp at h
    | optionList a b => simp at h
    | dropdown opts sel =>
      by_cases hmem : value ∈ opts
      · simp only [if_pos hmem, Except.ok.injEq, Prod.mk.injEq] at h
        rw [← h.1]
        exact fieldKinds_updateField form key _ _ hlk rfl
      · simp only [if_neg hmem, Except.ok.injEq, Prod.mk.injEq] at h
        rw [← h.1]
    | other c => simp at h

/-- A successful populate step of the current revision never changes any
field's name-to-kind assignment. -/
theorem renderFormNewStep_kinds (row : RowMap) (form : Form) (key : String)
    (index : Int) (form' : Form) (us : List Update)
    (h : renderFormNewStep row form key index = Except.ok (form', us)) :
    fieldKinds form' = fieldKinds form := by
  simp only [renderFormNewStep] at h
  by_cases hguard : index = -1 ∨ rowVal row index = none
  · rw [if_pos hguard] at h
    simp only [Except.ok.injEq, Prod.mk.injEq] at h
    rw [← h.1]
  · rw [if_neg hguard] at h
    split at h
    · exact setTextByKey_kinds _ _ _ _ _ h
    · exact setCheckBoxByKey_kinds _ _ _ _ _ h
    · exact selectRadioByKey_kinds _ _ _ _ _ h
    · exact selectOptionListByKey_kinds _ _ _ _ _ h
    · exact selectDropdownByKey_kinds _ _ _ _ _ h
    · simp only [Except.ok.injEq, Prod.mk.injEq] at h
      rw [← h.1]

/-- Under the C10 precondition, one key is processed identically by the
class-name dispatch and the instanceof-tag dispatch. -/
theorem steps_agree (row : RowMap) (form : Form) (key : String) (index : Int)
    (hgood : goodEntry row form key index) :
    renderFormOldStep row form key index = renderFormNewStep row form key index := by
  by_cases hidx : index = -1
  · subst hidx
    simp [renderFormOldStep, renderFormNewStep]
  · obtain ⟨hkind, hval⟩ := hgood hidx
    obtain ⟨v, hv⟩ := Option.ne_none_iff_exists'.mp hval
    obtain ⟨f0, hlk⟩ : ∃ f0, lookupField form key = some f0 := by
      unfold fieldKinds at hkind
      cases hl : lookupField form key with
      | none => rw [hl] at hkind; exact absurd rfl hkind
      | some f0 => exact ⟨f0, rfl⟩
    have hguard : ¬(index = -1 ∨ rowVal row index = none) := by
      simp [hidx, hv]
    rw [renderFormOldStep, if_neg hidx, renderFormNewStep]
    simp only [if_neg hguard, hlk]
    rw [fieldKinds] at hkind
    rw [hlk] at hkind
    cases f0 <;> simp_all [getFieldType, constructorName]

/-- Under the C10 precondition the whole `forEach` iteration agrees, including
the logged update sequence. -/
theorem renderFormRun_agree (row : RowMap) (fd : FormMap) :
    ∀ (form : Form) (log : List Update),
      (∀ kv ∈ fd, goodEntry row form kv.1 kv.2) →
      renderFormRun (renderFormOldStep row) fd form log
        = renderFormRun (renderFormNewStep row) fd form log := by
  induction fd with
  | nil => intro form log h; rfl
  | cons kv rest ih =>
    intro form log h
    have hstep := steps_agree row form kv.1 kv.2 (h kv (List.mem_cons_self kv rest))
    rw [renderFormRun, renderFormRun, hstep]
    cases hres : renderFormNewStep row form kv.1 kv.2 with
    | error e => rfl
    | ok p =>
      obtain ⟨form', us⟩ := p
      have hkinds := renderFormNewStep_kinds row form kv.1 kv.2 form' us hres
      refine ih form' (log ++ us) (fun kv' hkv' hne => ?_)
      have hg := h kv' (List.mem_cons_of_mem kv hkv') hne
      exact ⟨by rw [congrFun hkinds kv'.1]; exact hg.1, hg.2⟩

/-- C10: the earlier class-name-dispatch `renderForm` and the current
`getFieldType`-dispatch `renderForm` perform exactly the same sequence of field
updates (and produce the same final form) for every row, mapping and form,
provided every mapped non-sentinel entry resolves to an existing field of a
supported kind and to a defined, non-null row value. -/
theorem renderForm_old_new_equivalent (row : RowMap) (fd : FormMap) (form : Form)
    (h : ∀ kv ∈ fd, goodEntry row form kv.1 kv.2) :
    renderFormOld row (some fd) form = renderFormNew row (some fd) form :=
  renderFormRun_agree row fd form [] h

/-- Witness for C10: a text field mapped from column 0 with a defined value. -/
theorem renderForm_old_new_equivalent_witness :
    renderFormOld (fun i => if i = 0 then some "Alice" else none)
        (some [("name", 0)]) [("name", Field.textField none)]
      = renderFormNew (fun i => if i = 0 then some "Alice" else none)
        (some [("name", 0)]) [("name", Field.textField none)] :=
  renderForm_old_new_equivalent (fun i => if i = 0 then some "Alice" else none)
    [("name", 0)] [("name", Field.textField none)]
    (by
      intro kv hkv hne
      rw [List.mem_singleton] at hkv
      subst hkv
      refine ⟨by decide, by decide⟩)

end PlainMerge
